import Mathlib

/-!
Shallow embedding of the order workflow of the e-commerce backend
(`app/services/order_service.py`, data model in `app/database/models.py`,
price update from `app/services/product_service.py`).

Modelling conventions:
* UUIDs are modelled as `Nat`; `DB.nextId` models the freshness of newly
  generated ids (`uuid4` never collides with an existing row id).
* Python `int` is `Int`; the `float` money fields are modelled as `Rat`
  (the claims under study are structural equalities of sums and snapshots,
  none depends on binary rounding).
* Timestamps (`datetime.utcnow()`) are an abstract `Nat` parameter `now`.
* The ORM session is modelled as explicit state `DB`.  Every operation
  returns `Except (Err × DB) (DB × result)`: the `DB` in the error carries
  the observable database state at the moment the exception is raised
  (mutations that were never committed are not observable, matching the
  transaction rollback performed by the session dependency).
* `secrets.token_hex` in `_generate_order_number` is nondeterministic, so
  `checkout` receives the generated order number as the parameter
  `orderNumber`; the `UNIQUE` constraint on `orders.order_number` is
  enforced at flush time, modelled by the duplicate check in `checkout`.
-/

namespace ECommerce

/-- `OrderStatus` enum of `models.py`. -/
inductive OrderStatus where
  | pending
  | paid
  | processing
  | shipped
  | delivered
  | cancelled
  | refunded
deriving Repr, DecidableEq

/-- `Product` row (`models.py`): the fields the order workflow touches. -/
structure Product where
  id : Nat
  name : String
  price : Rat
  stock : Int
  is_active : Bool
  seller_id : Nat
  created_at : Nat
  updated_at : Nat
deriving Repr, DecidableEq

/-- `CartItem` row (`models.py`). -/
structure CartItem where
  id : Nat
  quantity : Int
  user_id : Nat
  product_id : Nat
  created_at : Nat
  updated_at : Nat
deriving Repr, DecidableEq

/-- `Order` row (`models.py`). -/
structure Order where
  id : Nat
  order_number : String
  status : OrderStatus
  total_amount : Rat
  shipping_address : String
  shipping_city : String
  shipping_zip : String
  shipping_phone : String
  buyer_id : Nat
  created_at : Nat
  updated_at : Nat
deriving Repr, DecidableEq

/-- `OrderItem` row (`models.py`). -/
structure OrderItem where
  id : Nat
  quantity : Int
  price_at_purchase : Rat
  order_id : Nat
  product_id : Nat
deriving Repr, DecidableEq

/-- The relational store: one list per table.  `nextId` models the id
generator (`uuid4`): ids `≥ nextId` are fresh. -/
structure DB where
  products : List Product
  cart_items : List CartItem
  orders : List Order
  order_items : List OrderItem
  nextId : Nat
deriving Repr, DecidableEq

/-- `CheckoutRequest` schema (`app/api/schemas/order.py`): shipping fields. -/
structure CheckoutRequest where
  shipping_address : String
  shipping_city : String
  shipping_zip : String
  shipping_phone : String
deriving Repr, DecidableEq

/-- Error taxonomy of the service layer (each `HTTPException` raise site,
plus `conflict` for an integrity error raised at flush and `internal` for a
broken foreign key, where the Python code would crash). -/
inductive Err where
  | emptyCart
  | productUnavailable (name : String)
  | insufficientStock (name : String) (available : Int)
  | notFound
  | forbidden
  | invalidState (s : OrderStatus)
  | conflict
  | internal
deriving Repr, DecidableEq

/-- Entry of `order_items_data` accumulated by the validation loop of
`OrderService.checkout` (lines 136-140). -/
structure ItemData where
  product_id : Nat
  quantity : Int
  price_at_purchase : Rat
deriving Repr, DecidableEq

/-- Row lookup by primary key: `session.get(Product, id)` / the
`cart_item.product` relation. -/
def findProduct (db : DB) (pid : Nat) : Option Product :=
  db.products.find? (fun p => p.id == pid)

/-- Row lookup by primary key: `OrderService.get_by_id`. -/
def findOrder (db : DB) (oid : Nat) : Option Order :=
  db.orders.find? (fun o => o.id == oid)

/-- The `user.cart_items` relation: all cart rows of one user. -/
def userCartItems (db : DB) (uid : Nat) : List CartItem :=
  db.cart_items.filter (fun ci => ci.user_id == uid)

/-- The `order.items` relation: all order-item rows of one order. -/
def orderItemsOf (db : DB) (oid : Nat) : List OrderItem :=
  db.order_items.filter (fun it => it.order_id == oid)

/-- Observed stock of a product id (`none` when the row is absent). -/
def stockOf (ps : List Product) (pid : Nat) : Option Int :=
  (ps.find? (fun p => p.id == pid)).map (fun p => p.stock)

/-- The validation loop of `checkout` (lines 115-140): walk the cart items
in order; for each, resolve the product, fail if it is inactive, fail if
`product.stock < quantity`; otherwise accumulate the subtotal into the
total and snapshot `(product_id, quantity, price_at_purchase)`.  The loop
performs no mutation. -/
def checkCartItems (db : DB) : List CartItem → Except Err (Rat × List ItemData)
  | [] => .ok (0, [])
  | ci :: rest =>
    match findProduct db ci.product_id with
    | none => .error .internal
    | some p =>
      if p.is_active = false then
        .error (.productUnavailable p.name)
      else if p.stock < ci.quantity then
        .error (.insufficientStock p.name p.stock)
      else
        match checkCartItems db rest with
        | .error e => .error e
        | .ok (t, ds) =>
          .ok (p.price * ci.quantity + t, ⟨p.id, ci.quantity, p.price⟩ :: ds)

/-- The item-creation loop of `checkout` (lines 157-163): one `OrderItem`
per `order_items_data` entry, ids drawn fresh in order. -/
def mkOrderItems (oid : Nat) : Nat → List ItemData → List OrderItem
  | _, [] => []
  | n, d :: ds =>
    ⟨n, d.quantity, d.price_at_purchase, oid, d.product_id⟩ :: mkOrderItems oid (n + 1) ds

/-- The stock-decrement part of the same loop (lines 158, 165-166):
`product.stock -= quantity; product.updated_at = now` for each entry,
addressing the product row by id. -/
def decrementStocks (now : Nat) (ds : List ItemData) (ps : List Product) : List Product :=
  ds.foldl
    (fun acc d =>
      acc.map (fun p =>
        if p.id = d.product_id then
          { p with stock := p.stock - d.quantity, updated_at := now }
        else p))
    ps

/-- The stock-restore loop of `cancel_order` (lines 245-248):
`product.stock += item.quantity; product.updated_at = now` for each of the
order's items. -/
def restoreStocks (now : Nat) (items : List OrderItem) (ps : List Product) : List Product :=
  items.foldl
    (fun acc it =>
      acc.map (fun p =>
        if p.id = it.product_id then
          { p with stock := p.stock + it.quantity, updated_at := now }
        else p))
    ps

/-- The committed state and created order of a successful checkout
(lines 142-172): new `Order` in `pending` status, one `OrderItem` per
snapshot entry, stocks decremented, the buyer's cart rows deleted. -/
def checkoutCommit (db : DB) (uid : Nat) (req : CheckoutRequest) (orderNumber : String)
    (now : Nat) (total : Rat) (ds : List ItemData) : DB × Order :=
  let oid := db.nextId
  let order : Order :=
    { id := oid
      order_number := orderNumber
      status := .pending
      total_amount := total
      shipping_address := req.shipping_address
      shipping_city := req.shipping_city
      shipping_zip := req.shipping_zip
      shipping_phone := req.shipping_phone
      buyer_id := uid
      created_at := now
      updated_at := now }
  let newItems := mkOrderItems oid (oid + 1) ds
  ({ products := decrementStocks now ds db.products
     cart_items := db.cart_items.filter (fun ci => ¬ ci.user_id = uid)
     orders := db.orders ++ [order]
     order_items := db.order_items ++ newItems
     nextId := oid + 1 + ds.length },
   order)

/-- `OrderService.checkout` (lines 97-180).  Reads the buyer's cart, fails
with `emptyCart` when it is empty, runs the pure validation loop, then (all
validation done) creates the order, its items, the stock decrements and the
cart deletion, committing them together.  The duplicate-order-number test
models the `UNIQUE` constraint on `orders.order_number` checked at flush
(line 154); on any error the observable state is the `DB` paired with the
error. -/
def checkout (db : DB) (uid : Nat) (req : CheckoutRequest) (orderNumber : String)
    (now : Nat) : Except (Err × DB) (DB × Order) :=
  if userCartItems db uid = [] then
    .error (.emptyCart, db)
  else
    match checkCartItems db (userCartItems db uid) with
    | .error e => .error (e, db)
    | .ok (total, ds) =>
      if db.orders.any (fun o => o.order_number == orderNumber) then
        .error (.conflict, db)
      else
        .ok (checkoutCommit db uid req orderNumber now total ds)

/-- `OrderService.update_status` (lines 182-210): look the order up,
`notFound` when absent; otherwise overwrite the status — any target status,
no transition-table validation — and touch `updated_at`. -/
def update_status (db : DB) (oid : Nat) (newStatus : OrderStatus) (now : Nat) :
    Except (Err × DB) (DB × Order) :=
  match findOrder db oid with
  | none => .error (.notFound, db)
  | some order =>
    let order' := { order with status := newStatus, updated_at := now }
    .ok ({ db with
            orders := db.orders.map (fun o => if o.id = oid then order' else o) },
         order')

/-- `OrderService.cancel_order` (lines 212-257): `notFound` when the order
is absent; `forbidden` when the caller is not the buyer; `invalidState`
when the status is one of `shipped`, `delivered`, `cancelled`; otherwise
restore each item's product stock, set the status to `cancelled` and touch
`updated_at`. -/
def cancel_order (db : DB) (oid : Nat) (uid : Nat) (now : Nat) :
    Except (Err × DB) (DB × Order) :=
  match findOrder db oid with
  | none => .error (.notFound, db)
  | some order =>
    if ¬ order.buyer_id = uid then
      .error (.forbidden, db)
    else if order.status = .shipped ∨ order.status = .delivered ∨
        order.status = .cancelled then
      .error (.invalidState order.status, db)
    else
      let order' := { order with status := OrderStatus.cancelled, updated_at := now }
      .ok ({ db with
              products := restoreStocks now (orderItemsOf db oid) db.products
              orders := db.orders.map (fun o => if o.id = oid then order' else o) },
           order')

/-- `ProductService.update` (product_service.py lines 114-161) specialised
to a patch that sets only `price`: `notFound` when the product is absent,
`forbidden` when the caller does not own it, otherwise set `price` and
touch `updated_at`. -/
def update_product_price (db : DB) (pid : Nat) (newPrice : Rat) (sellerId : Nat)
    (now : Nat) : Except (Err × DB) (DB × Product) :=
  match findProduct db pid with
  | none => .error (.notFound, db)
  | some product =>
    if ¬ product.seller_id = sellerId then
      .error (.forbidden, db)
    else
      let product' := { product with price := newPrice, updated_at := now }
      .ok ({ db with
              products := db.products.map (fun p => if p.id = pid then product' else p) },
           product')

/-- Net quantity a list of snapshot entries holds against one product id. -/
def qtyTowards (pid : Nat) (ds : List ItemData) : Int :=
  (ds.map (fun d => if pid = d.product_id then d.quantity else 0)).sum

/-- Net quantity a list of order items holds against one product id. -/
def itemQtyTowards (pid : Nat) (items : List OrderItem) : Int :=
  (items.map (fun it => if pid = it.product_id then it.quantity else 0)).sum

/-- Net quantity held against one product id, over bare
`(product_id, quantity)` pairs. -/
def pairQty (pid : Nat) (prs : List (Nat × Int)) : Int :=
  (prs.map (fun pr => if pid = pr.1 then pr.2 else 0)).sum

/-- Freshness of the id generator: every row id already present is below
`nextId` (what `uuid4` guarantees up to astronomic improbability). -/
def freshIds (db : DB) : Prop :=
  (∀ o ∈ db.orders, o.id < db.nextId) ∧ (∀ it ∈ db.order_items, it.order_id < db.nextId)

instance (db : DB) : Decidable (freshIds db) := by
  unfold freshIds
  infer_instance

/-! ### Concrete fixtures, used by witnesses and counterexamples -/

/-- Shipping fields of a valid `CheckoutRequest`. -/
def reqA : CheckoutRequest :=
  { shipping_address := "5 Main Street"
    shipping_city := "Springfield"
    shipping_zip := "12345"
    shipping_phone := "0123456789" }

/-- An active product: price 10, stock 5, seller 9. -/
def prodA : Product :=
  { id := 1, name := "Widget", price := 10, stock := 5, is_active := true
    seller_id := 9, created_at := 0, updated_at := 0 }

/-- An active product with low stock: price 20, stock 1. -/
def prodB : Product :=
  { id := 2, name := "Gadget", price := 20, stock := 1, is_active := true
    seller_id := 9, created_at := 0, updated_at := 0 }

/-- User 4's cart row: 2 units of product 1. -/
def cartA : CartItem :=
  { id := 11, quantity := 2, user_id := 4, product_id := 1
    created_at := 0, updated_at := 0 }

/-- User 4's cart row: 2 units of product 2 (stock only 1). -/
def cartB : CartItem :=
  { id := 12, quantity := 2, user_id := 4, product_id := 2
    created_at := 0, updated_at := 0 }

/-- An order of buyer 4 over 2 units of product 1, in `pending` status. -/
def orderBase : Order :=
  { id := 7, order_number := "ORD-20250101-AAAA", status := .pending
    total_amount := 20, shipping_address := "5 Main Street"
    shipping_city := "Springfield", shipping_zip := "12345"
    shipping_phone := "0123456789", buyer_id := 4, created_at := 0, updated_at := 0 }

/-- `orderBase` in `refunded` status. -/
def orderRefunded : Order := { orderBase with status := .refunded }

/-- `orderBase` in `cancelled` status. -/
def orderCancelled : Order := { orderBase with status := .cancelled }

/-- `orderBase` in `shipped` status. -/
def orderShipped : Order := { orderBase with status := .shipped }

/-- The order item of `orderBase`: 2 units of product 1 at price 10. -/
def itemA : OrderItem :=
  { id := 8, quantity := 2, price_at_purchase := 10, order_id := 7, product_id := 1 }

/-- A one-order store around the given order. -/
def dbOf (o : Order) : DB :=
  { products := [prodA], cart_items := [], orders := [o]
    order_items := [itemA], nextId := 100 }

/-- The empty store. -/
def dbEmpty : DB :=
  { products := [], cart_items := [], orders := [], order_items := [], nextId := 0 }

/-- A store where user 4's cart holds 2 units of product 1 (stock 5). -/
def dbMain : DB :=
  { products := [prodA, prodB], cart_items := [cartA], orders := []
    order_items := [], nextId := 100 }

/-- A store where user 4's cart also asks 2 units of product 2 (stock 1). -/
def dbInsuff : DB :=
  { products := [prodA, prodB], cart_items := [cartA, cartB], orders := []
    order_items := [], nextId := 100 }

/-- A store holding an order whose number is `orderBase`'s, and a valid
cart for user 4: checking out against the same generated number collides. -/
def dbDup : DB :=
  { products := [prodA], cart_items := [cartA], orders := [orderBase]
    order_items := [itemA], nextId := 100 }

/-- The store `dbOf orderBase` after buyer 4 cancels order 7 at time 3. -/
def dbAfterCancel : DB :=
  { products := [{ prodA with stock := 7, updated_at := 3 }]
    cart_items := []
    orders := [{ orderBase with status := .cancelled, updated_at := 3 }]
    order_items := [itemA]
    nextId := 100 }

/-- The cancelled order returned by that call. -/
def orderAfterCancel : Order := { orderBase with status := .cancelled, updated_at := 3 }

/-- The order created by checking out `dbMain`'s cart with number "N1" at
time 5. -/
def orderNew : Order :=
  { id := 100, order_number := "N1", status := .pending
    total_amount := (10 : Rat) * ((2 : Int) : Rat) + 0
    shipping_address := "5 Main Street", shipping_city := "Springfield"
    shipping_zip := "12345", shipping_phone := "0123456789"
    buyer_id := 4, created_at := 5, updated_at := 5 }

/-- The order item created by that checkout. -/
def itemNew : OrderItem :=
  { id := 101, quantity := 2, price_at_purchase := 10, order_id := 100, product_id := 1 }

/-- `dbMain` after that checkout: stock decremented, cart drained. -/
def dbAfterCheckout : DB :=
  { products := [{ prodA with stock := 3, updated_at := 5 }, prodB]
    cart_items := []
    orders := [orderNew]
    order_items := [itemNew]
    nextId := 102 }

/-- `dbAfterCheckout` after buyer 4 cancels order 100 at time 9: stock is
back at its pre-checkout value. -/
def dbRoundTrip : DB :=
  { products := [{ prodA with stock := 5, updated_at := 9 }, prodB]
    cart_items := []
    orders := [{ orderNew with status := .cancelled, updated_at := 9 }]
    order_items := [itemNew]
    nextId := 102 }

/-- An active product whose stock exactly matches the cart below: price 7,
stock 2. -/
def prodC : Product :=
  { id := 3, name := "Bolt", price := 7, stock := 2, is_active := true
    seller_id := 9, created_at := 0, updated_at := 0 }

/-- User 6's cart row: 2 units of product 3 — exactly the available stock. -/
def cartC : CartItem :=
  { id := 13, quantity := 2, user_id := 6, product_id := 3
    created_at := 0, updated_at := 0 }

/-- A store where user 6's cart asks for exactly product 3's whole stock. -/
def dbBoundary : DB :=
  { products := [prodC], cart_items := [cartC], orders := []
    order_items := [], nextId := 200 }

/-- The order created by checking out `dbBoundary`'s cart with number "N3"
at time 5. -/
def orderBoundary : Order :=
  { id := 200, order_number := "N3", status := .pending
    total_amount := (7 : Rat) * ((2 : Int) : Rat) + 0
    shipping_address := "5 Main Street", shipping_city := "Springfield"
    shipping_zip := "12345", shipping_phone := "0123456789"
    buyer_id := 6, created_at := 5, updated_at := 5 }

/-- `dbBoundary` after that checkout: the whole stock was sold, leaving
product 3 at stock zero. -/
def dbBoundaryAfter : DB :=
  { products := [{ prodC with stock := 0, updated_at := 5 }]
    cart_items := []
    orders := [orderBoundary]
    order_items := [{ id := 201, quantity := 2, price_at_purchase := 7
                      order_id := 200, product_id := 3 }]
    nextId := 202 }

/-! ### General lemmas about the embedding -/

theorem find?_map_pres {α : Type} (l : List α) (f : α → α) (q : α → Bool)
    (hf : ∀ a, q (f a) = q a) : (l.map f).find? q = (l.find? q).map f := by
  rw [List.find?_map]
  congr 2
  funext a
  exact hf a

theorem stockOf_map_upd (ps : List Product) (pid tgt : Nat) (g : Int → Int) (now : Nat) :
    stockOf (ps.map (fun p =>
        if p.id = tgt then { p with stock := g p.stock, updated_at := now } else p)) pid
      = (stockOf ps pid).map (fun s => if pid = tgt then g s else s) := by
  unfold stockOf
  rw [find?_map_pres]
  · cases hfind : ps.find? (fun p => p.id == pid) with
    | none => rfl
    | some p =>
      have hp : p.id = pid := by simpa using List.find?_some hfind
      subst hp
      by_cases h : p.id = tgt <;> simp [h]
  · intro p
    by_cases h : p.id = tgt <;> simp [h]

theorem decrementStocks_cons (now : Nat) (d : ItemData) (ds : List ItemData)
    (ps : List Product) :
    decrementStocks now (d :: ds) ps
      = decrementStocks now ds (ps.map (fun p =>
          if p.id = d.product_id then
            { p with stock := p.stock - d.quantity, updated_at := now }
          else p)) := rfl

theorem restoreStocks_cons (now : Nat) (it : OrderItem) (items : List OrderItem)
    (ps : List Product) :
    restoreStocks now (it :: items) ps
      = restoreStocks now items (ps.map (fun p =>
          if p.id = it.product_id then
            { p with stock := p.stock + it.quantity, updated_at := now }
          else p)) := rfl

theorem stockOf_decrementStocks (now : Nat) (ds : List ItemData) (ps : List Product)
    (pid : Nat) :
    stockOf (decrementStocks now ds ps) pid
      = (stockOf ps pid).map (fun s => s - qtyTowards pid ds) := by
  induction ds generalizing ps with
  | nil =>
    cases h : stockOf ps pid <;> simp [decrementStocks, qtyTowards, h]
  | cons d ds ih =>
    rw [decrementStocks_cons, ih,
      stockOf_map_upd ps pid d.product_id (fun s => s - d.quantity) now]
    cases h : stockOf ps pid with
    | none => rfl
    | some s =>
      by_cases hd : pid = d.product_id <;>
        simp [qtyTowards, hd, sub_sub]

theorem stockOf_restoreStocks (now : Nat) (items : List OrderItem) (ps : List Product)
    (pid : Nat) :
    stockOf (restoreStocks now items ps) pid
      = (stockOf ps pid).map (fun s => s + itemQtyTowards pid items) := by
  induction items generalizing ps with
  | nil =>
    cases h : stockOf ps pid <;> simp [restoreStocks, itemQtyTowards, h]
  | cons it items ih =>
    rw [restoreStocks_cons, ih,
      stockOf_map_upd ps pid it.product_id (fun s => s + it.quantity) now]
    cases h : stockOf ps pid with
    | none => rfl
    | some s =>
      by_cases hd : pid = it.product_id <;>
        simp [itemQtyTowards, hd, add_assoc]

theorem qtyTowards_eq_pairQty (pid : Nat) (ds : List ItemData) :
    qtyTowards pid ds = pairQty pid (ds.map (fun d => (d.product_id, d.quantity))) := by
  unfold qtyTowards pairQty
  rw [List.map_map]
  rfl

theorem itemQtyTowards_eq_pairQty (pid : Nat) (items : List OrderItem) :
    itemQtyTowards pid items
      = pairQty pid (items.map (fun it => (it.product_id, it.quantity))) := by
  unfold itemQtyTowards pairQty
  rw [List.map_map]
  rfl

theorem checkoutCommit_snd (db : DB) (uid : Nat) (req : CheckoutRequest) (num : String)
    (now : Nat) (t : Rat) (ds : List ItemData) :
    (checkoutCommit db uid req num now t ds).2 =
      { id := db.nextId
        order_number := num
        status := .pending
        total_amount := t
        shipping_address := req.shipping_address
        shipping_city := req.shipping_city
        shipping_zip := req.shipping_zip
        shipping_phone := req.shipping_phone
        buyer_id := uid
        created_at := now
        updated_at := now } := rfl

theorem checkoutCommit_fst (db : DB) (uid : Nat) (req : CheckoutRequest) (num : String)
    (now : Nat) (t : Rat) (ds : List ItemData) :
    (checkoutCommit db uid req num now t ds).1 =
      { products := decrementStocks now ds db.products
        cart_items := db.cart_items.filter (fun ci => ¬ ci.user_id = uid)
        orders := db.orders ++ [(checkoutCommit db uid req num now t ds).2]
        order_items := db.order_items ++ mkOrderItems db.nextId (db.nextId + 1) ds
        nextId := db.nextId + 1 + ds.length } := rfl

theorem checkout_ok_iff (db : DB) (uid : Nat) (req : CheckoutRequest) (num : String)
    (now : Nat) (r : DB × Order) :
    checkout db uid req num now = .ok r ↔
      ∃ t ds, ¬ userCartItems db uid = [] ∧
        checkCartItems db (userCartItems db uid) = .ok (t, ds) ∧
        db.orders.any (fun o => o.order_number == num) = false ∧
        r = checkoutCommit db uid req num now t ds := by
  unfold checkout
  by_cases hc : userCartItems db uid = []
  · simp [hc]
  · rw [if_neg hc]
    cases hchk : checkCartItems db (userCartItems db uid) with
    | error e => simp [hc, hchk]
    | ok td =>
      obtain ⟨t, ds⟩ := td
      by_cases hdup : db.orders.any (fun o => o.order_number == num) = true
      · simp [hc, hchk, hdup]
      · have hdup' : db.orders.any (fun o => o.order_number == num) = false := by
          simpa using hdup
        simp [hc, hchk, hdup', eq_comm]
        constructor
        · intro h
          exact ⟨t, ds, ⟨rfl, rfl⟩, h⟩
        · rintro ⟨t1, ds1, ⟨h1, h2⟩, h3⟩
          subst h1
          subst h2
          exact h3

theorem checkCartItems_error_shape (db : DB) (l : List CartItem) (e : Err)
    (h : checkCartItems db l = .error e) :
    e = .internal ∨ (∃ n, e = .productUnavailable n) ∨
      (∃ n s, e = .insufficientStock n s) := by
  induction l with
  | nil => simp [checkCartItems] at h
  | cons ci rest ih =>
    unfold checkCartItems at h
    cases hf : findProduct db ci.product_id with
    | none =>
      simp only [hf] at h
      injection h with h1
      exact Or.inl h1.symm
    | some p =>
      simp only [hf] at h
      by_cases ha : p.is_active = false
      · rw [if_pos ha] at h
        injection h with h1
        exact Or.inr (Or.inl ⟨p.name, h1.symm⟩)
      · rw [if_neg ha] at h
        by_cases hs : p.stock < ci.quantity
        · rw [if_pos hs] at h
          injection h with h1
          exact Or.inr (Or.inr ⟨p.name, p.stock, h1.symm⟩)
        · rw [if_neg hs] at h
          cases hrest : checkCartItems db rest with
          | error e' =>
            simp only [hrest] at h
            injection h with h1
            exact ih (h1 ▸ hrest)
          | ok td =>
            obtain ⟨t, ds⟩ := td
            simp only [hrest] at h
            exact Except.noConfusion h

theorem checkCartItems_total (db : DB) (l : List CartItem) (t : Rat) (ds : List ItemData)
    (h : checkCartItems db l = .ok (t, ds)) :
    t = (ds.map (fun d => d.price_at_purchase * (d.quantity : Rat))).sum := by
  induction l generalizing t ds with
  | nil =>
    unfold checkCartItems at h
    simp only [Except.ok.injEq, Prod.mk.injEq] at h
    obtain ⟨h1, h2⟩ := h
    subst h1
    subst h2
    simp
  | cons ci rest ih =>
    unfold checkCartItems at h
    cases hf : findProduct db ci.product_id with
    | none => simp only [hf] at h; exact Except.noConfusion h
    | some p =>
      simp only [hf] at h
      by_cases ha : p.is_active = false
      · rw [if_pos ha] at h; exact Except.noConfusion h
      · rw [if_neg ha] at h
        by_cases hs : p.stock < ci.quantity
        · rw [if_pos hs] at h; exact Except.noConfusion h
        · rw [if_neg hs] at h
          cases hrest : checkCartItems db rest with
          | error e' => simp only [hrest] at h; exact Except.noConfusion h
          | ok td =>
            obtain ⟨t', ds'⟩ := td
            simp only [hrest, Except.ok.injEq, Prod.mk.injEq] at h
            obtain ⟨h1, h2⟩ := h
            subst h1
            subst h2
            simp [ih t' ds' hrest]

theorem checkCartItems_snapshot (db : DB) (l : List CartItem) (t : Rat)
    (ds : List ItemData) (h : checkCartItems db l = .ok (t, ds)) :
    ∀ d ∈ ds, ∃ p, findProduct db d.product_id = some p ∧
      d.price_at_purchase = p.price ∧ p.is_active = true ∧ d.quantity ≤ p.stock := by
  induction l generalizing t ds with
  | nil =>
    unfold checkCartItems at h
    simp only [Except.ok.injEq, Prod.mk.injEq] at h
    obtain ⟨-, h2⟩ := h
    subst h2
    intro d hd
    exact absurd hd (List.not_mem_nil d)
  | cons ci rest ih =>
    unfold checkCartItems at h
    cases hf : findProduct db ci.product_id with
    | none => simp only [hf] at h; exact Except.noConfusion h
    | some p =>
      simp only [hf] at h
      by_cases ha : p.is_active = false
      · rw [if_pos ha] at h; exact Except.noConfusion h
      · rw [if_neg ha] at h
        by_cases hs : p.stock < ci.quantity
        · rw [if_pos hs] at h; exact Except.noConfusion h
        · rw [if_neg hs] at h
          cases hrest : checkCartItems db rest with
          | error e' => simp only [hrest] at h; exact Except.noConfusion h
          | ok td =>
            obtain ⟨t', ds'⟩ := td
            simp only [hrest, Except.ok.injEq, Prod.mk.injEq] at h
            obtain ⟨-, h2⟩ := h
            subst h2
            intro d hd
            rcases List.mem_cons.1 hd with hd | hd
            · subst hd
              have hpid : p.id = ci.product_id := by
                simpa using List.find?_some hf
              refine ⟨p, ?_, rfl, ?_, ?_⟩
              · unfold findProduct at hf ⊢
                simpa [hpid] using hf
              · cases hact : p.is_active with
                | false => exact absurd hact ha
                | true => rfl
              · simpa using hs
            · exact ih t' ds' hrest d hd

theorem checkCartItems_pairs (db : DB) (l : List CartItem) (t : Rat) (ds : List ItemData)
    (h : checkCartItems db l = .ok (t, ds)) :
    ds.map (fun d => (d.product_id, d.quantity))
      = l.map (fun ci => (ci.product_id, ci.quantity)) := by
  induction l generalizing t ds with
  | nil =>
    unfold checkCartItems at h
    simp only [Except.ok.injEq, Prod.mk.injEq] at h
    obtain ⟨-, h2⟩ := h
    subst h2
    rfl
  | cons ci rest ih =>
    unfold checkCartItems at h
    cases hf : findProduct db ci.product_id with
    | none => simp only [hf] at h; exact Except.noConfusion h
    | some p =>
      simp only [hf] at h
      by_cases ha : p.is_active = false
      · rw [if_pos ha] at h; exact Except.noConfusion h
      · rw [if_neg ha] at h
        by_cases hs : p.stock < ci.quantity
        · rw [if_pos hs] at h; exact Except.noConfusion h
        · rw [if_neg hs] at h
          cases hrest : checkCartItems db rest with
          | error e' => simp only [hrest] at h; exact Except.noConfusion h
          | ok td =>
            obtain ⟨t', ds'⟩ := td
            simp only [hrest, Except.ok.injEq, Prod.mk.injEq] at h
            obtain ⟨-, h2⟩ := h
            subst h2
            have hpid : p.id = ci.product_id := by
              simpa using List.find?_some hf
            simp [hpid, ih t' ds' hrest]

theorem mkOrderItems_mem_order_id (oid : Nat) (ds : List ItemData) :
    ∀ n it, it ∈ mkOrderItems oid n ds → it.order_id = oid := by
  induction ds with
  | nil =>
    intro n it h
    exact absurd h (List.not_mem_nil it)
  | cons d ds ih =>
    intro n it h
    rcases List.mem_cons.1 h with h | h
    · subst h; rfl
    · exact ih (n + 1) it h

theorem mkOrderItems_filter (oid n : Nat) (ds : List ItemData) :
    (mkOrderItems oid n ds).filter (fun it => it.order_id == oid)
      = mkOrderItems oid n ds := by
  refine List.filter_eq_self.2 (fun it hit => ?_)
  simp [mkOrderItems_mem_order_id oid ds n it hit]

theorem mkOrderItems_pairs (oid : Nat) (ds : List ItemData) :
    ∀ n, (mkOrderItems oid n ds).map (fun it => (it.product_id, it.quantity))
      = ds.map (fun d => (d.product_id, d.quantity)) := by
  induction ds with
  | nil => intro n; rfl
  | cons d ds ih =>
    intro n
    simp [mkOrderItems, ih (n + 1)]

theorem mkOrderItems_price_qty (oid : Nat) (ds : List ItemData) :
    ∀ n, (mkOrderItems oid n ds).map (fun it => it.price_at_purchase * (it.quantity : Rat))
      = ds.map (fun d => d.price_at_purchase * (d.quantity : Rat)) := by
  induction ds with
  | nil => intro n; rfl
  | cons d ds ih =>
    intro n
    simp [mkOrderItems, ih (n + 1)]

theorem mkOrderItems_mem_shape (oid : Nat) (ds : List ItemData) :
    ∀ n it, it ∈ mkOrderItems oid n ds →
      ∃ d ∈ ds, it.product_id = d.product_id ∧
        it.price_at_purchase = d.price_at_purchase ∧ it.quantity = d.quantity := by
  induction ds with
  | nil =>
    intro n it h
    exact absurd h (List.not_mem_nil it)
  | cons d ds ih =>
    intro n it h
    rcases List.mem_cons.1 h with h | h
    · subst h
      exact ⟨d, List.mem_cons_self d ds, rfl, rfl, rfl⟩
    · obtain ⟨d', hd', hp⟩ := ih (n + 1) it h
      exact ⟨d', List.mem_cons_of_mem d hd', hp⟩

theorem orderItemsOf_commit (db : DB) (uid : Nat) (req : CheckoutRequest) (num : String)
    (now : Nat) (t : Rat) (ds : List ItemData)
    (hfresh : ∀ it ∈ db.order_items, it.order_id < db.nextId) :
    orderItemsOf (checkoutCommit db uid req num now t ds).1 db.nextId
      = mkOrderItems db.nextId (db.nextId + 1) ds := by
  rw [checkoutCommit_fst]
  unfold orderItemsOf
  simp only []
  rw [List.filter_append]
  have h1 : db.order_items.filter (fun it => it.order_id == db.nextId) = [] := by
    refine List.filter_eq_nil_iff.2 (fun it hit => ?_)
    have := hfresh it hit
    simp only [beq_iff_eq]
    omega
  rw [h1, mkOrderItems_filter, List.nil_append]

theorem findOrder_commit (db : DB) (uid : Nat) (req : CheckoutRequest) (num : String)
    (now : Nat) (t : Rat) (ds : List ItemData)
    (hfresh : ∀ o ∈ db.orders, o.id < db.nextId) :
    findOrder (checkoutCommit db uid req num now t ds).1 db.nextId
      = some (checkoutCommit db uid req num now t ds).2 := by
  rw [checkoutCommit_fst]
  unfold findOrder
  simp only []
  rw [List.find?_append]
  have h1 : db.orders.find? (fun o => o.id == db.nextId) = none := by
    refine List.find?_eq_none.2 (fun o ho => ?_)
    have := hfresh o ho
    simp only [beq_iff_eq]
    omega
  rw [h1]
  rw [checkoutCommit_snd]
  simp [List.find?]

theorem cancel_order_ok_spec (db : DB) (oid uid now : Nat) (db' : DB) (o' : Order)
    (h : cancel_order db oid uid now = .ok (db', o')) :
    ∃ order, findOrder db oid = some order ∧ order.buyer_id = uid ∧
      ¬ (order.status = .shipped ∨ order.status = .delivered ∨
          order.status = .cancelled) ∧
      o' = { order with status := OrderStatus.cancelled, updated_at := now } ∧
      db' = { db with
              products := restoreStocks now (orderItemsOf db oid) db.products
              orders := db.orders.map (fun o =>
                if o.id = oid then
                  { order with status := OrderStatus.cancelled, updated_at := now }
                else o) } := by
  unfold cancel_order at h
  cases hf : findOrder db oid with
  | none => simp only [hf] at h; exact Except.noConfusion h
  | some order =>
    simp only [hf] at h
    by_cases hb : ¬ order.buyer_id = uid
    · rw [if_pos hb] at h; exact Except.noConfusion h
    · rw [if_neg hb] at h
      by_cases hst : order.status = .shipped ∨ order.status = .delivered ∨
          order.status = .cancelled
      · rw [if_pos hst] at h; exact Except.noConfusion h
      · rw [if_neg hst] at h
        simp only [Except.ok.injEq, Prod.mk.injEq] at h
        obtain ⟨h1, h2⟩ := h
        push_neg at hb
        exact ⟨order, rfl, hb, hst, h2.symm, h1.symm⟩

theorem findOrder_replace (db : DB) (oid : Nat) (order order' : Order)
    (hf : findOrder db oid = some order) (hid : order'.id = order.id) :
    (db.orders.map (fun o => if o.id = oid then order' else o)).find?
        (fun o => o.id == oid) = some order' := by
  have hoid : order.id = oid := by simpa using List.find?_some hf
  rw [find?_map_pres]
  · unfold findOrder at hf
    rw [hf]
    simp [hoid]
  · intro o
    by_cases h : o.id = oid <;> simp [h, hid, hoid]

theorem itemQtyTowards_cons (pid : Nat) (it : OrderItem) (items : List OrderItem) :
    itemQtyTowards pid (it :: items)
      = (if pid = it.product_id then it.quantity else 0) + itemQtyTowards pid items := by
  simp [itemQtyTowards]

theorem itemQtyTowards_of_not_any (pid : Nat) (items : List OrderItem)
    (h : items.any (fun it => it.product_id == pid) = false) :
    itemQtyTowards pid items = 0 := by
  induction items with
  | nil => rfl
  | cons it items ih =>
    simp only [List.any_cons, Bool.or_eq_false_iff] at h
    rw [itemQtyTowards_cons, ih h.2]
    have : ¬ pid = it.product_id := fun hc => by simp [hc] at h
    simp [this]

theorem itemQtyTowards_eq_zero (pid : Nat) (items : List OrderItem)
    (h : ∀ x ∈ items, ¬ x.product_id = pid) : itemQtyTowards pid items = 0 := by
  induction items with
  | nil => rfl
  | cons it items ih =>
    rw [itemQtyTowards_cons, ih (fun x hx => h x (List.mem_cons_of_mem it hx))]
    have h1 := h it (List.mem_cons_self it items)
    have h2 : ¬ pid = it.product_id := fun hc => h1 hc.symm
    simp [h2]

theorem foldl_map_comm {α β : Type} (step : β → α → β) (l : List α) (ps : List β) :
    l.foldl (fun acc x => acc.map (fun b => step b x)) ps
      = ps.map (fun b => l.foldl step b) := by
  induction l generalizing ps with
  | nil => simp
  | cons x l ih =>
    simp only [List.foldl_cons]
    rw [ih, List.map_map]
    rfl

theorem restoreOne_closed (now : Nat) (items : List OrderItem) (p : Product) :
    items.foldl (fun q it =>
        if q.id = it.product_id then
          { q with stock := q.stock + it.quantity, updated_at := now }
        else q) p
      = if items.any (fun it => it.product_id == p.id) then
          { p with stock := p.stock + itemQtyTowards p.id items, updated_at := now }
        else p := by
  induction items generalizing p with
  | nil => simp
  | cons it items ih =>
    simp only [List.foldl_cons, List.any_cons]
    by_cases hm : p.id = it.product_id
    · rw [if_pos hm, ih]
      have hcond : (it.product_id == p.id) = true := by simp [hm]
      by_cases hany : (items.any fun i => i.product_id == p.id) = true
      · simp [hcond, hany, itemQtyTowards_cons, hm, add_assoc]
        exact fun hall => itemQtyTowards_eq_zero _ _ hall
      · have hall : ∀ x ∈ items, ¬ x.product_id = p.id := by simpa using hany
        have hz : itemQtyTowards it.product_id items = 0 :=
          itemQtyTowards_eq_zero _ _
            (fun x hx hc => hall x hx (show x.product_id = p.id by rw [hm]; exact hc))
        have hex : ¬ ∃ x ∈ items, x.product_id = it.product_id :=
          fun ⟨x, hx, hc⟩ =>
            hall x hx (show x.product_id = p.id by rw [hm]; exact hc)
        simp [hcond, itemQtyTowards_cons, hm, hz, hex]
    · rw [if_neg hm, ih]
      have hcond : (it.product_id == p.id) = false := by
        simp
        exact fun hc => hm hc.symm
      simp [hcond, itemQtyTowards_cons, hm]

theorem restoreStocks_closed (now : Nat) (items : List OrderItem) (ps : List Product) :
    restoreStocks now items ps
      = ps.map (fun p =>
          if items.any (fun it => it.product_id == p.id) then
            { p with stock := p.stock + itemQtyTowards p.id items, updated_at := now }
          else p) := by
  unfold restoreStocks
  rw [foldl_map_comm (fun q it =>
    if q.id = it.product_id then
      { q with stock := q.stock + it.quantity, updated_at := now }
    else q) items ps]
  congr 1
  funext p
  exact restoreOne_closed now items p

theorem find?_id_unique (l : List Order) (oid : Nat) (order : Order)
    (hnodup : (l.map (fun o => o.id)).Nodup)
    (hf : l.find? (fun o => o.id == oid) = some order) :
    ∀ o ∈ l, o.id = oid → o = order := by
  induction l with
  | nil => intro o ho; exact absurd ho (List.not_mem_nil o)
  | cons a l ih =>
    rw [List.map_cons, List.nodup_cons] at hnodup
    obtain ⟨hn1, hn2⟩ := hnodup
    intro o ho hoid
    by_cases ha : a.id = oid
    · have : (a :: l).find? (fun o => o.id == oid) = some a := by
        simp [List.find?, ha]
      rw [this] at hf
      injection hf with hfa
      rcases List.mem_cons.1 ho with ho | ho
      · rw [← hfa]; exact ho
      · exfalso
        exact hn1 (List.mem_map.2 ⟨o, ho, by rw [hoid, ← ha]⟩)
    · have : (a :: l).find? (fun o => o.id == oid) = l.find? (fun o => o.id == oid) := by
        have hb : (a.id == oid) = false := by simpa using ha
        simp [List.find?, hb]
      rw [this] at hf
      rcases List.mem_cons.1 ho with ho | ho
      · exact absurd (ho ▸ hoid) ha
      · exact ih hn2 hf o ho hoid

theorem checkCartItems_ok_of_all (db : DB) (l : List CartItem)
    (h : ∀ ci ∈ l, ∃ p, findProduct db ci.product_id = some p ∧
      p.is_active = true ∧ ci.quantity ≤ p.stock) :
    ∃ t ds, checkCartItems db l = .ok (t, ds) := by
  induction l with
  | nil => exact ⟨0, [], rfl⟩
  | cons ci rest ih =>
    obtain ⟨p, hp, ha, hs⟩ := h ci (List.mem_cons_self ci rest)
    obtain ⟨t, ds, hrest⟩ := ih (fun c hc => h c (List.mem_cons_of_mem ci hc))
    refine ⟨p.price * ci.quantity + t, ⟨p.id, ci.quantity, p.price⟩ :: ds, ?_⟩
    unfold checkCartItems
    simp only [hp]
    rw [if_neg (by rw [ha]; exact fun hcon => Bool.noConfusion hcon),
      if_neg (Int.not_lt.2 hs)]
    simp only [hrest]

/-! ### Claims -/

/-- C1: for every checkout attempt that fails, no state is mutated: the
observable store at the moment the error is raised is the initial one — no
Order, no OrderItem, no stock change, no cart deletion. -/
theorem checkout_failed_no_mutation (db : DB) (uid : Nat) (req : CheckoutRequest)
    (num : String) (now : Nat) (e : Err) (dbE : DB)
    (h : checkout db uid req num now = .error (e, dbE)) :
    dbE = db ∧ dbE.orders = db.orders ∧ dbE.order_items = db.order_items ∧
      dbE.products = db.products ∧ dbE.cart_items = db.cart_items := by
  have key : dbE = db := by
    unfold checkout at h
    by_cases hc : userCartItems db uid = []
    · rw [if_pos hc] at h
      simp only [Except.error.injEq, Prod.mk.injEq] at h
      exact h.2.symm
    · rw [if_neg hc] at h
      cases hchk : checkCartItems db (userCartItems db uid) with
      | error e' =>
        simp only [hchk, Except.error.injEq, Prod.mk.injEq] at h
        exact h.2.symm
      | ok td =>
        obtain ⟨t, ds⟩ := td
        simp only [hchk] at h
        by_cases hdup : db.orders.any (fun o => o.order_number == num) = true
        · rw [if_pos hdup] at h
          simp only [Except.error.injEq, Prod.mk.injEq] at h
          exact h.2.symm
        · rw [if_neg hdup] at h
          exact Except.noConfusion h
  exact ⟨key, by rw [key], by rw [key], by rw [key], by rw [key]⟩

theorem checkout_failed_no_mutation_witness :
    dbEmpty = dbEmpty ∧ dbEmpty.orders = dbEmpty.orders ∧
      dbEmpty.order_items = dbEmpty.order_items ∧
      dbEmpty.products = dbEmpty.products ∧
      dbEmpty.cart_items = dbEmpty.cart_items :=
  checkout_failed_no_mutation dbEmpty 4 reqA "X" 0 .emptyCart dbEmpty (by rfl)

/-- C5: `update_status` accepts any target status for any existing order —
no transition-table validation, any status overwrites any other — and its
only failure mode is `notFound` when the order does not exist. -/
theorem update_status_no_validation (db : DB) (oid : Nat) (s : OrderStatus) (now : Nat) :
    (findOrder db oid = none →
      update_status db oid s now = .error (.notFound, db)) ∧
    (∀ order, findOrder db oid = some order →
      ∃ db', update_status db oid s now =
          .ok (db', { order with status := s, updated_at := now }) ∧
        findOrder db' oid = some { order with status := s, updated_at := now } ∧
        db'.products = db.products ∧ db'.order_items = db.order_items ∧
        db'.cart_items = db.cart_items) := by
  constructor
  · intro hf
    unfold update_status
    simp only [hf]
  · intro order hf
    unfold update_status
    simp only [hf]
    refine ⟨_, rfl, ?_, rfl, rfl, rfl⟩
    exact findOrder_replace db oid order _ hf rfl

theorem update_status_no_validation_witness :
    ∃ db', update_status (dbOf orderCancelled) 7 .pending 9 =
        .ok (db', { orderCancelled with status := .pending, updated_at := 9 }) ∧
      findOrder db' 7 = some { orderCancelled with status := .pending, updated_at := 9 } ∧
      db'.products = (dbOf orderCancelled).products ∧
      db'.order_items = (dbOf orderCancelled).order_items ∧
      db'.cart_items = (dbOf orderCancelled).cart_items :=
  (update_status_no_validation (dbOf orderCancelled) 7 .pending 9).2
    orderCancelled (by rfl)

/-- C9: `cancel_order` checks its failure conditions in fixed precedence —
`notFound` (order absent) before `forbidden` (caller not the buyer) before
`invalidState` (status shipped/delivered/cancelled); in particular a
non-owner cancelling a shipped order receives `forbidden`. -/
theorem cancel_order_error_precedence (db : DB) (oid uid now : Nat) :
    (findOrder db oid = none →
      cancel_order db oid uid now = .error (.notFound, db)) ∧
    (∀ order, findOrder db oid = some order → ¬ order.buyer_id = uid →
      cancel_order db oid uid now = .error (.forbidden, db)) ∧
    (∀ order, findOrder db oid = some order → order.buyer_id = uid →
      (order.status = .shipped ∨ order.status = .delivered ∨
        order.status = .cancelled) →
      cancel_order db oid uid now = .error (.invalidState order.status, db)) := by
  refine ⟨fun hf => ?_, fun order hf hb => ?_, fun order hf hb hst => ?_⟩
  · unfold cancel_order
    simp only [hf]
  · unfold cancel_order
    simp only [hf]
    rw [if_pos hb]
  · unfold cancel_order
    simp only [hf]
    rw [if_neg (not_not_intro hb), if_pos hst]

theorem cancel_order_error_precedence_witness :
    cancel_order (dbOf orderShipped) 7 5 3 = .error (.forbidden, dbOf orderShipped) :=
  (cancel_order_error_precedence (dbOf orderShipped) 7 5 3).2.1
    orderShipped (by rfl) (by decide)

/-- C4: for an existing order cancelled by its buyer, `cancel_order` fails
with `invalidState` exactly when the status is shipped, delivered or
cancelled; otherwise it succeeds, increments each referenced product's
stock by the matching items' quantity, sets the status to `cancelled` and
updates the timestamp. -/
theorem cancel_order_guard (db : DB) (oid uid now : Nat) (order : Order)
    (hf : findOrder db oid = some order) (hb : order.buyer_id = uid) :
    ((order.status = .shipped ∨ order.status = .delivered ∨
        order.status = .cancelled) →
      cancel_order db oid uid now = .error (.invalidState order.status, db)) ∧
    (¬ (order.status = .shipped ∨ order.status = .delivered ∨
        order.status = .cancelled) →
      ∃ db', cancel_order db oid uid now =
          .ok (db', { order with status := OrderStatus.cancelled, updated_at := now }) ∧
        (∀ pid, stockOf db'.products pid =
          (stockOf db.products pid).map
            (fun s => s + itemQtyTowards pid (orderItemsOf db oid))) ∧
        findOrder db' oid =
          some { order with status := OrderStatus.cancelled, updated_at := now }) := by
  constructor
  · intro hst
    unfold cancel_order
    simp only [hf]
    rw [if_neg (not_not_intro hb), if_pos hst]
  · intro hst
    unfold cancel_order
    simp only [hf]
    rw [if_neg (not_not_intro hb), if_neg hst]
    refine ⟨_, rfl, ?_, ?_⟩
    · intro pid
      exact stockOf_restoreStocks now (orderItemsOf db oid) db.products pid
    · exact findOrder_replace db oid order _ hf rfl

theorem cancel_order_guard_witness :
    ∃ db', cancel_order (dbOf orderBase) 7 4 3 =
        .ok (db', { orderBase with status := OrderStatus.cancelled, updated_at := 3 }) ∧
      (∀ pid, stockOf db'.products pid =
        (stockOf (dbOf orderBase).products pid).map
          (fun s => s + itemQtyTowards pid (orderItemsOf (dbOf orderBase) 7))) ∧
      findOrder db' 7 =
        some { orderBase with status := OrderStatus.cancelled, updated_at := 3 } :=
  (cancel_order_guard (dbOf orderBase) 7 4 3 orderBase (by rfl) (by rfl)).2 (by decide)

/-- C10: a successful `cancel_order` changes only the order's `status` and
`updated_at` and, for products referenced by its items, only `stock` and
`updated_at`; cart items, order items, the id generator, all other orders,
all other products and every other field are unchanged. -/
theorem cancel_order_frame (db : DB) (oid uid now : Nat) (db' : DB) (o' : Order)
    (hnodup : (db.orders.map (fun o => o.id)).Nodup)
    (h : cancel_order db oid uid now = .ok (db', o')) :
    db'.cart_items = db.cart_items ∧ db'.order_items = db.order_items ∧
    db'.nextId = db.nextId ∧
    db'.orders = db.orders.map (fun o =>
      if o.id = oid then
        { o with status := OrderStatus.cancelled, updated_at := now }
      else o) ∧
    db'.products = db.products.map (fun p =>
      if (orderItemsOf db oid).any (fun it => it.product_id == p.id) then
        { p with stock := p.stock + itemQtyTowards p.id (orderItemsOf db oid)
                 updated_at := now }
      else p) ∧
    ∃ order, findOrder db oid = some order ∧
      o' = { order with status := OrderStatus.cancelled, updated_at := now } := by
  obtain ⟨order, hf, hb, hst, ho', hdb'⟩ := cancel_order_ok_spec db oid uid now db' o' h
  subst hdb'
  refine ⟨rfl, rfl, rfl, ?_, ?_, order, hf, ho'⟩
  · have huniq := find?_id_unique db.orders oid order hnodup hf
    exact List.map_congr_left (fun o ho => by
      by_cases hid : o.id = oid
      · rw [if_pos hid, if_pos hid, huniq o ho hid]
      · rw [if_neg hid, if_neg hid])
  · exact restoreStocks_closed now (orderItemsOf db oid) db.products

theorem cancel_order_frame_witness :
    dbAfterCancel.cart_items = (dbOf orderBase).cart_items ∧
    dbAfterCancel.order_items = (dbOf orderBase).order_items ∧
    dbAfterCancel.nextId = (dbOf orderBase).nextId ∧
    dbAfterCancel.orders = (dbOf orderBase).orders.map (fun o =>
      if o.id = 7 then
        { o with status := OrderStatus.cancelled, updated_at := 3 }
      else o) ∧
    dbAfterCancel.products = (dbOf orderBase).products.map (fun p =>
      if (orderItemsOf (dbOf orderBase) 7).any (fun it => it.product_id == p.id) then
        { p with stock := p.stock + itemQtyTowards p.id (orderItemsOf (dbOf orderBase) 7)
                 updated_at := 3 }
      else p) ∧
    ∃ order, findOrder (dbOf orderBase) 7 = some order ∧
      orderAfterCancel = { order with status := OrderStatus.cancelled, updated_at := 3 } :=
  cancel_order_frame (dbOf orderBase) 7 4 3 dbAfterCancel orderAfterCancel
    (by decide) (by rfl)

theorem itemQtyTowards_mkOrderItems (pid oid n : Nat) (ds : List ItemData) :
    itemQtyTowards pid (mkOrderItems oid n ds) = qtyTowards pid ds := by
  rw [itemQtyTowards_eq_pairQty, mkOrderItems_pairs, ← qtyTowards_eq_pairQty]

theorem pairQty_append (pid : Nat) (a b : List (Nat × Int)) :
    pairQty pid (a ++ b) = pairQty pid a + pairQty pid b := by
  simp [pairQty]

theorem pairQty_zero (pid : Nat) (prs : List (Nat × Int))
    (h : ∀ pr ∈ prs, ¬ pr.1 = pid) : pairQty pid prs = 0 := by
  refine List.sum_eq_zero (fun x hx => ?_)
  obtain ⟨pr, hpr, hx⟩ := List.mem_map.1 hx
  have : ¬ pid = pr.1 := fun hc => h pr hpr hc.symm
  rw [← hx, if_neg this]

theorem update_product_price_frame (db : DB) (pid : Nat) (newPrice : Rat)
    (sid now : Nat) (db' : DB) (p' : Product)
    (h : update_product_price db pid newPrice sid now = .ok (db', p')) :
    db'.orders = db.orders ∧ db'.order_items = db.order_items ∧
      db'.cart_items = db.cart_items := by
  unfold update_product_price at h
  cases hf : findProduct db pid with
  | none => simp only [hf] at h; exact Except.noConfusion h
  | some product =>
    simp only [hf] at h
    by_cases hs : ¬ product.seller_id = sid
    · rw [if_pos hs] at h; exact Except.noConfusion h
    · rw [if_neg hs] at h
      simp only [Except.ok.injEq, Prod.mk.injEq] at h
      obtain ⟨h1, -⟩ := h
      rw [← h1]
      exact ⟨rfl, rfl, rfl⟩

theorem checkCartItems_append_error (db : DB) (pre l : List CartItem) (t : Rat)
    (ds : List ItemData) (e : Err)
    (hpre : checkCartItems db pre = .ok (t, ds))
    (hl : checkCartItems db l = .error e) :
    checkCartItems db (pre ++ l) = .error e := by
  induction pre generalizing t ds with
  | nil => simpa using hl
  | cons ci pre ih =>
    rw [List.cons_append]
    unfold checkCartItems at hpre ⊢
    cases hf : findProduct db ci.product_id with
    | none => simp only [hf] at hpre; exact Except.noConfusion hpre
    | some p =>
      simp only [hf] at hpre ⊢
      by_cases ha : p.is_active = false
      · rw [if_pos ha] at hpre; exact Except.noConfusion hpre
      · rw [if_neg ha] at hpre
        rw [if_neg ha]
        by_cases hs : p.stock < ci.quantity
        · rw [if_pos hs] at hpre; exact Except.noConfusion hpre
        · rw [if_neg hs] at hpre
          rw [if_neg hs]
          cases hrest : checkCartItems db pre with
          | error e' => simp only [hrest] at hpre; exact Except.noConfusion hpre
          | ok td =>
            obtain ⟨t', ds'⟩ := td
            simp only [ih t' ds' hrest]

/-- C3: for every successful checkout followed by a successful cancellation
of the resulting order, every product's stock is back at its value before
the checkout (decrement by the purchased quantity, then increment by the
same quantity). -/
theorem checkout_cancel_stock_conservation (db : DB) (uid : Nat)
    (req : CheckoutRequest) (num : String) (now now2 : Nat)
    (hfresh : freshIds db) (db1 : DB) (order : Order)
    (h1 : checkout db uid req num now = .ok (db1, order))
    (db2 : DB) (o2 : Order)
    (h2 : cancel_order db1 order.id uid now2 = .ok (db2, o2)) :
    ∀ pid, stockOf db2.products pid = stockOf db.products pid := by
  obtain ⟨t, ds, hc, hchk, hdup, hr⟩ :=
    (checkout_ok_iff db uid req num now (db1, order)).1 h1
  have hdb1 : db1 = (checkoutCommit db uid req num now t ds).1 :=
    congrArg Prod.fst hr
  have hoid : order.id = db.nextId := by
    have : order = (checkoutCommit db uid req num now t ds).2 :=
      congrArg Prod.snd hr
    rw [this, checkoutCommit_snd]
  obtain ⟨order0, hf0, hb0, hst0, ho2, hdb2⟩ :=
    cancel_order_ok_spec db1 order.id uid now2 db2 o2 h2
  intro pid
  have hprods2 : db2.products =
      restoreStocks now2 (orderItemsOf db1 order.id) db1.products := by
    rw [hdb2]
  have hitems : orderItemsOf db1 order.id
      = mkOrderItems db.nextId (db.nextId + 1) ds := by
    rw [hdb1, hoid]
    exact orderItemsOf_commit db uid req num now t ds hfresh.2
  have hprods1 : db1.products = decrementStocks now ds db.products := by
    rw [hdb1, checkoutCommit_fst]
  rw [hprods2, stockOf_restoreStocks, hprods1, stockOf_decrementStocks, hitems,
    itemQtyTowards_mkOrderItems]
  cases stockOf db.products pid with
  | none => rfl
  | some s => simp

theorem checkout_cancel_stock_conservation_witness :
    stockOf dbRoundTrip.products 1 = stockOf dbMain.products 1 :=
  checkout_cancel_stock_conservation dbMain 4 reqA "N1" 5 9 (by decide)
    dbAfterCheckout orderNew (by rfl) dbRoundTrip
    { orderNew with status := OrderStatus.cancelled, updated_at := 9 } (by rfl) 1

/-- C2: a successful checkout's order has `total_amount` equal to the sum
of `price_at_purchase * quantity` over its order items, each item's
`price_at_purchase` is the product's price at checkout time, and a later
product-price change touches neither the stored order (hence its
`total_amount`) nor its items. -/
theorem checkout_total_snapshot (db : DB) (uid : Nat) (req : CheckoutRequest)
    (num : String) (now : Nat)
    (hfresh : ∀ it ∈ db.order_items, it.order_id < db.nextId)
    (db1 : DB) (order : Order)
    (h1 : checkout db uid req num now = .ok (db1, order)) :
    order.total_amount
        = ((orderItemsOf db1 order.id).map
            (fun it => it.price_at_purchase * (it.quantity : Rat))).sum ∧
    (∀ it ∈ orderItemsOf db1 order.id,
      ∃ p, findProduct db it.product_id = some p ∧ it.price_at_purchase = p.price) ∧
    (∀ pid newPrice sid now2 db2 p2,
      update_product_price db1 pid newPrice sid now2 = .ok (db2, p2) →
      orderItemsOf db2 order.id = orderItemsOf db1 order.id ∧
      findOrder db2 order.id = findOrder db1 order.id) := by
  obtain ⟨t, ds, hc, hchk, hdup, hr⟩ :=
    (checkout_ok_iff db uid req num now (db1, order)).1 h1
  have hdb1 : db1 = (checkoutCommit db uid req num now t ds).1 :=
    congrArg Prod.fst hr
  have horder : order = (checkoutCommit db uid req num now t ds).2 :=
    congrArg Prod.snd hr
  have hoid : order.id = db.nextId := by rw [horder, checkoutCommit_snd]
  have hitems : orderItemsOf db1 order.id
      = mkOrderItems db.nextId (db.nextId + 1) ds := by
    rw [hdb1, hoid]
    exact orderItemsOf_commit db uid req num now t ds hfresh
  refine ⟨?_, ?_, ?_⟩
  · have htot : order.total_amount = t := by rw [horder, checkoutCommit_snd]
    rw [htot, hitems, mkOrderItems_price_qty]
    exact checkCartItems_total db (userCartItems db uid) t ds hchk
  · intro it hit
    rw [hitems] at hit
    obtain ⟨d, hd, hp1, hp2, -⟩ :=
      mkOrderItems_mem_shape db.nextId ds (db.nextId + 1) it hit
    obtain ⟨p, hfp, hprice, -, -⟩ :=
      checkCartItems_snapshot db (userCartItems db uid) t ds hchk d hd
    exact ⟨p, by rw [hp1]; exact hfp, by rw [hp2]; exact hprice⟩
  · intro pid newPrice sid now2 db2 p2 hupd
    obtain ⟨ho, hoi, -⟩ :=
      update_product_price_frame db1 pid newPrice sid now2 db2 p2 hupd
    constructor
    · unfold orderItemsOf
      rw [hoi]
    · unfold findOrder
      rw [ho]

theorem checkout_total_snapshot_witness :
    orderNew.total_amount
        = ((orderItemsOf dbAfterCheckout orderNew.id).map
            (fun it => it.price_at_purchase * (it.quantity : Rat))).sum ∧
    (∀ it ∈ orderItemsOf dbAfterCheckout orderNew.id,
      ∃ p, findProduct dbMain it.product_id = some p ∧
        it.price_at_purchase = p.price) ∧
    (∀ pid newPrice sid now2 db2 p2,
      update_product_price dbAfterCheckout pid newPrice sid now2 = .ok (db2, p2) →
      orderItemsOf db2 orderNew.id = orderItemsOf dbAfterCheckout orderNew.id ∧
      findOrder db2 orderNew.id = findOrder dbAfterCheckout orderNew.id) :=
  checkout_total_snapshot dbMain 4 reqA "N1" 5 (by decide)
    dbAfterCheckout orderNew (by rfl)

/-- C8: checkout fails with `emptyCart` exactly when the buyer has no cart
items; otherwise, walking the cart in order, an inactive product fails with
`productUnavailable` and a quantity strictly exceeding the stock fails with
`insufficientStock` — the comparison is strict: a cart whose every item
asks at most the available stock (equality included) is accepted, and an
accepted quantity equal to the stock leaves the stock at zero. -/
theorem checkout_error_conditions (db : DB) (uid : Nat) (req : CheckoutRequest)
    (num : String) (now : Nat) :
    ((∃ dbE, checkout db uid req num now = .error (.emptyCart, dbE)) ↔
      userCartItems db uid = []) ∧
    (∀ pre ci post t ds p, userCartItems db uid = pre ++ ci :: post →
      checkCartItems db pre = .ok (t, ds) →
      findProduct db ci.product_id = some p →
      (p.is_active = false →
        checkout db uid req num now = .error (.productUnavailable p.name, db)) ∧
      (p.is_active = true → p.stock < ci.quantity →
        checkout db uid req num now = .error (.insufficientStock p.name p.stock, db))) ∧
    ((∀ ci ∈ userCartItems db uid, ∃ p, findProduct db ci.product_id = some p ∧
        p.is_active = true ∧ ci.quantity ≤ p.stock) →
      ¬ userCartItems db uid = [] →
      db.orders.any (fun o => o.order_number == num) = false →
      ∃ db1 order, checkout db uid req num now = .ok (db1, order)) ∧
    (∀ db1 order, checkout db uid req num now = .ok (db1, order) →
      ∀ pre ci post p, userCartItems db uid = pre ++ ci :: post →
      findProduct db ci.product_id = some p →
      ci.quantity = p.stock →
      (∀ ci2, ci2 ∈ pre ++ post → ¬ ci2.product_id = ci.product_id) →
      stockOf db1.products p.id = some 0) := by
  refine ⟨⟨?_, ?_⟩, ?_, ?_, ?_⟩
  · intro ⟨dbE, h⟩
    by_cases hc : userCartItems db uid = []
    · exact hc
    · exfalso
      unfold checkout at h
      rw [if_neg hc] at h
      cases hchk : checkCartItems db (userCartItems db uid) with
      | error e =>
        simp only [hchk, Except.error.injEq, Prod.mk.injEq] at h
        rcases checkCartItems_error_shape db (userCartItems db uid) e hchk with
          h1 | ⟨n, h1⟩ | ⟨n, s, h1⟩ <;> rw [h1] at h <;> exact Err.noConfusion h.1
      | ok td =>
        obtain ⟨t, ds⟩ := td
        simp only [hchk] at h
        by_cases hdup : db.orders.any (fun o => o.order_number == num) = true
        · rw [if_pos hdup] at h
          simp only [Except.error.injEq, Prod.mk.injEq] at h
          exact Err.noConfusion h.1
        · rw [if_neg hdup] at h
          exact Except.noConfusion h
  · intro hc
    refine ⟨db, ?_⟩
    unfold checkout
    rw [if_pos hc]
  · intro pre ci post t ds p hsplit hpre hfp
    have hc : ¬ userCartItems db uid = [] := by
      rw [hsplit]
      simp
    constructor
    · intro ha
      have hci : checkCartItems db (ci :: post) = .error (.productUnavailable p.name) := by
        unfold checkCartItems
        simp only [hfp]
        rw [if_pos ha]
      have hall : checkCartItems db (userCartItems db uid)
          = .error (.productUnavailable p.name) := by
        rw [hsplit]
        exact checkCartItems_append_error db pre (ci :: post) t ds _ hpre hci
      unfold checkout
      rw [if_neg hc]
      simp only [hall]
    · intro ha hs
      have hci : checkCartItems db (ci :: post)
          = .error (.insufficientStock p.name p.stock) := by
        unfold checkCartItems
        simp only [hfp]
        rw [if_neg (by rw [ha]; exact fun hcon => Bool.noConfusion hcon), if_pos hs]
      have hall : checkCartItems db (userCartItems db uid)
          = .error (.insufficientStock p.name p.stock) := by
        rw [hsplit]
        exact checkCartItems_append_error db pre (ci :: post) t ds _ hpre hci
      unfold checkout
      rw [if_neg hc]
      simp only [hall]
  · intro hall hc hdup
    obtain ⟨t, ds, hchk⟩ := checkCartItems_ok_of_all db (userCartItems db uid) hall
    exact ⟨_, _, (checkout_ok_iff db uid req num now _).2 ⟨t, ds, hc, hchk, hdup, rfl⟩⟩
  · intro db1 order hok pre ci post p hsplit hfp hq hothers
    obtain ⟨t, ds, hc, hchk, hdup, hr⟩ :=
      (checkout_ok_iff db uid req num now (db1, order)).1 hok
    have hdb1 : db1 = (checkoutCommit db uid req num now t ds).1 :=
      congrArg Prod.fst hr
    have hprods1 : db1.products = decrementStocks now ds db.products := by
      rw [hdb1, checkoutCommit_fst]
    have hpid : p.id = ci.product_id := by
      simpa using List.find?_some hfp
    have hstock : stockOf db.products p.id = some p.stock := by
      unfold findProduct at hfp
      unfold stockOf
      rw [hpid, hfp]
      rfl
    have hqty : qtyTowards p.id ds = ci.quantity := by
      rw [qtyTowards_eq_pairQty, checkCartItems_pairs db _ t ds hchk, hsplit,
        List.map_append, List.map_cons, pairQty_append]
      have hz1 : pairQty p.id (pre.map (fun c => (c.product_id, c.quantity))) = 0 := by
        refine pairQty_zero p.id _ (fun pr hpr => ?_)
        obtain ⟨c, hcmem, hcp⟩ := List.mem_map.1 hpr
        rw [← hcp]
        intro hcon
        exact hothers c (List.mem_append.2 (Or.inl hcmem)) (hcon.trans hpid)
      have hz2 : pairQty p.id (post.map (fun c => (c.product_id, c.quantity))) = 0 := by
        refine pairQty_zero p.id _ (fun pr hpr => ?_)
        obtain ⟨c, hcmem, hcp⟩ := List.mem_map.1 hpr
        rw [← hcp]
        intro hcon
        exact hothers c (List.mem_append.2 (Or.inr hcmem)) (hcon.trans hpid)
      have hhead : pairQty p.id ((ci.product_id, ci.quantity) ::
          post.map (fun c => (c.product_id, c.quantity)))
          = ci.quantity + pairQty p.id (post.map (fun c => (c.product_id, c.quantity))) := by
        unfold pairQty
        rw [List.map_cons, List.sum_cons]
        simp [hpid]
      rw [hz1, hhead, hz2]
      simp
    rw [hprods1, stockOf_decrementStocks, hstock, hqty, hq]
    simp

theorem checkout_error_conditions_witness :
    checkout dbInsuff 4 reqA "N2" 5
      = .error (.insufficientStock prodB.name prodB.stock, dbInsuff) ∧
    (∃ db1 order, checkout dbBoundary 6 reqA "N3" 5 = .ok (db1, order)) ∧
    stockOf dbBoundaryAfter.products 3 = some 0 :=
  ⟨((checkout_error_conditions dbInsuff 4 reqA "N2" 5).2.1 [cartA] cartB []
      ((10 : Rat) * ((2 : Int) : Rat) + 0) [⟨1, 2, 10⟩] prodB
      (by rfl) (by rfl) (by rfl)).2 (by rfl) (by decide),
   (checkout_error_conditions dbBoundary 6 reqA "N3" 5).2.2.1
     (fun ci hci => by
       rw [show userCartItems dbBoundary 6 = [cartC] from rfl] at hci
       have hc : ci = cartC := List.mem_singleton.1 hci
       subst hc
       exact ⟨prodC, rfl, rfl, by decide⟩)
     (by decide) (by rfl),
   (checkout_error_conditions dbBoundary 6 reqA "N3" 5).2.2.2
     dbBoundaryAfter orderBoundary (by rfl) [] cartC [] prodC
     (by rfl) (by rfl) (by rfl)
     (fun ci2 h => absurd h (List.not_mem_nil ci2))⟩

/-- C6 counterexample: an owner's `cancel_order` on a *refunded* order is
accepted (moving it back to `cancelled` and restocking), and `update_status`
moves a *cancelled* order back to `pending` — so neither state is terminal
for every operation of the workflow, contrary to the claim. -/
theorem terminal_states_counterexample :
    cancel_order (dbOf orderRefunded) 7 4 9 =
      .ok ({ products := [{ prodA with stock := 7, updated_at := 9 }]
             cart_items := []
             orders := [{ orderBase with status := OrderStatus.cancelled, updated_at := 9 }]
             order_items := [itemA]
             nextId := 100 },
           { orderBase with status := OrderStatus.cancelled, updated_at := 9 }) ∧
    update_status (dbOf orderCancelled) 7 .pending 9 =
      .ok ({ products := [prodA]
             cart_items := []
             orders := [{ orderBase with status := OrderStatus.pending, updated_at := 9 }]
             order_items := [itemA]
             nextId := 100 },
           { orderBase with status := OrderStatus.pending, updated_at := 9 }) :=
  ⟨rfl, rfl⟩

/-- C6 amended: `cancelled` is terminal for `cancel_order` — it never
accepts an order whose status is `cancelled` — but `refunded` is not:
`cancel_order` accepts an owner's refunded order and moves it to
`cancelled`, and `update_status` accepts every transition out of any
state, `cancelled` and `refunded` included. -/
theorem cancelled_terminal_refunded_not (db : DB) (oid uid now : Nat) (order : Order)
    (hf : findOrder db oid = some order) :
    (order.status = .cancelled →
      ∃ e dbE, cancel_order db oid uid now = .error (e, dbE)) ∧
    (order.status = .refunded → order.buyer_id = uid →
      ∃ db', cancel_order db oid uid now =
        .ok (db', { order with status := OrderStatus.cancelled, updated_at := now })) ∧
    (∀ s : OrderStatus,
      ∃ db', update_status db oid s now =
        .ok (db', { order with status := s, updated_at := now })) := by
  refine ⟨?_, ?_, ?_⟩
  · intro hcanc
    by_cases hb : ¬ order.buyer_id = uid
    · refine ⟨.forbidden, db, ?_⟩
      unfold cancel_order
      simp only [hf]
      rw [if_pos hb]
    · refine ⟨.invalidState order.status, db, ?_⟩
      unfold cancel_order
      simp only [hf]
      rw [if_neg hb, if_pos (Or.inr (Or.inr hcanc))]
  · intro href hb
    have hst : ¬ (order.status = .shipped ∨ order.status = .delivered ∨
        order.status = .cancelled) := by
      rw [href]
      decide
    refine ⟨{ db with
              products := restoreStocks now (orderItemsOf db oid) db.products
              orders := db.orders.map (fun o =>
                if o.id = oid then
                  { order with status := OrderStatus.cancelled, updated_at := now }
                else o) }, ?_⟩
    unfold cancel_order
    simp only [hf]
    rw [if_neg (not_not_intro hb), if_neg hst]
  · intro s
    refine ⟨{ db with
              orders := db.orders.map (fun o =>
                if o.id = oid then
                  { order with status := s, updated_at := now }
                else o) }, ?_⟩
    unfold update_status
    simp only [hf]

theorem cancelled_terminal_refunded_not_witness :
    ∃ db', cancel_order (dbOf orderRefunded) 7 4 9 =
      .ok (db', { orderRefunded with status := OrderStatus.cancelled, updated_at := 9 }) :=
  (cancelled_terminal_refunded_not (dbOf orderRefunded) 7 4 9 orderRefunded
    (by rfl)).2.1 (by rfl) (by rfl)

/-- C7 counterexample: when the generated order number collides with an
existing order's number, checkout does not retry — the conflict surfaces
to the caller as an error. -/
theorem order_number_conflict_surfaces :
    checkout dbDup 4 reqA "ORD-20250101-AAAA" 5 = .error (.conflict, dbDup) := rfl

/-- C7 amended: checkout generates the order number once and performs no
retry: whenever the generated number equals an existing order's number and
the cart validates, the uniqueness violation surfaces to the caller as a
conflict error. -/
theorem checkout_conflict_no_retry (db : DB) (uid : Nat) (req : CheckoutRequest)
    (num : String) (now : Nat) (t : Rat) (ds : List ItemData)
    (hc : ¬ userCartItems db uid = [])
    (hchk : checkCartItems db (userCartItems db uid) = .ok (t, ds))
    (hdup : db.orders.any (fun o => o.order_number == num) = true) :
    checkout db uid req num now = .error (.conflict, db) := by
  unfold checkout
  rw [if_neg hc]
  simp only [hchk]
  rw [if_pos hdup]

theorem checkout_conflict_no_retry_witness :
    checkout dbDup 4 reqA "ORD-20250101-AAAA" 5 = .error (.conflict, dbDup) :=
  checkout_conflict_no_retry dbDup 4 reqA "ORD-20250101-AAAA" 5
    ((10 : Rat) * ((2 : Int) : Rat) + 0) [⟨1, 2, 10⟩]
    (by decide) (by rfl) (by rfl)

end ECommerce
